import Mathlib

/-!
Verification of the batch video-compilation engine in `src/main.py`
(Bulk-Video-Generation).

The development shallowly embeds the engine: pure helpers become Lean
functions, the process-wide disk cache becomes an explicit association
list threaded through the computation, fallible steps return
`Except String`, and machine arithmetic is `Nat` with explicit `% 2 ^ 32`.
Media-backend primitives (MoviePy calls such as `resize`, `crop`,
`on_color`, `concatenate_videoclips`, `audio_loop`, `subclip`) are not
part of the repository; they are modelled from the spec's collaborator
interface (spec §6), as noted on each definition.
-/

/-! ### MD5 (`hashlib.md5(...).hexdigest()` from `main.py` lines 107/130)

A direct executable implementation of MD5 over byte lists, with 32-bit
words represented as `Nat` reduced modulo `2 ^ 32`. -/

/-- Addition of two 32-bit words. -/
def add32 (a b : Nat) : Nat := (a + b) % 4294967296

/-- Left rotation of a 32-bit word by `n` bits. -/
def rotl32 (x n : Nat) : Nat :=
  ((x <<< n) % 4294967296) ||| ((x % 4294967296) >>> (32 - n))

/-- Bitwise complement of a 32-bit word. -/
def not32 (x : Nat) : Nat := x ^^^ 4294967295

/-- The 64 MD5 round constants `K[i] = floor(2^32 * abs(sin(i+1)))`. -/
def md5K : List Nat :=
  [0xd76aa478, 0xe8c7b756, 0x242070db, 0xc1bdceee,
   0xf57c0faf, 0x4787c62a, 0xa8304613, 0xfd469501,
   0x698098d8, 0x8b44f7af, 0xffff5bb1, 0x895cd7be,
   0x6b901122, 0xfd987193, 0xa679438e, 0x49b40821,
   0xf61e2562, 0xc040b340, 0x265e5a51, 0xe9b6c7aa,
   0xd62f105d, 0x02441453, 0xd8a1e681, 0xe7d3fbc8,
   0x21e1cde6, 0xc33707d6, 0xf4d50d87, 0x455a14ed,
   0xa9e3e905, 0xfcefa3f8, 0x676f02d9, 0x8d2a4c8a,
   0xfffa3942, 0x8771f681, 0x6d9d6122, 0xfde5380c,
   0xa4beea44, 0x4bdecfa9, 0xf6bb4b60, 0xbebfbc70,
   0x289b7ec6, 0xeaa127fa, 0xd4ef3085, 0x04881d05,
   0xd9d4d039, 0xe6db99e5, 0x1fa27cf8, 0xc4ac5665,
   0xf4292244, 0x432aff97, 0xab9423a7, 0xfc93a039,
   0x655b59c3, 0x8f0ccc92, 0xffeff47d, 0x85845dd1,
   0x6fa87e4f, 0xfe2ce6e0, 0xa3014314, 0x4e0811a1,
   0xf7537e82, 0xbd3af235, 0x2ad7d2bb, 0xeb86d391]

/-- The 64 per-round left-rotation amounts of MD5. -/
def md5S : List Nat :=
  [7, 12, 17, 22, 7, 12, 17, 22, 7, 12, 17, 22, 7, 12, 17, 22,
   5, 9, 14, 20, 5, 9, 14, 20, 5, 9, 14, 20, 5, 9, 14, 20,
   4, 11, 16, 23, 4, 11, 16, 23, 4, 11, 16, 23, 4, 11, 16, 23,
   6, 10, 15, 21, 6, 10, 15, 21, 6, 10, 15, 21, 6, 10, 15, 21]

/-- UTF-8 encoding of a string as a list of byte values
(`cache_key.encode('utf-8')` in `main.py`). -/
def utf8Bytes (s : String) : List Nat :=
  s.data.flatMap (fun ch =>
    let c := ch.toNat
    if c < 128 then [c]
    else if c < 2048 then [192 + c / 64, 128 + c % 64]
    else if c < 65536 then [224 + c / 4096, 128 + (c / 64) % 64, 128 + c % 64]
    else [240 + c / 262144, 128 + (c / 4096) % 64, 128 + (c / 64) % 64,
          128 + c % 64])

/-- MD5 padding: append `0x80`, zero bytes up to 56 mod 64, then the
64-bit little-endian bit length of the message. -/
def md5Pad (msg : List Nat) : List Nat :=
  let len := msg.length
  let z := (56 + 64 - ((len + 1) % 64)) % 64
  let bitLen := (8 * len) % 18446744073709551616
  msg ++ [128] ++ List.replicate z 0 ++
    (List.range 8).map (fun j => (bitLen >>> (8 * j)) % 256)

/-- Little-endian 32-bit word `j` of a 64-byte block. -/
def leWord (bs : List Nat) (j : Nat) : Nat :=
  bs.getD (4 * j) 0 + 256 * bs.getD (4 * j + 1) 0 +
    65536 * bs.getD (4 * j + 2) 0 + 16777216 * bs.getD (4 * j + 3) 0

/-- One MD5 round (step `i` of 64) on state `(a, b, c, d)` with message
block `M`. -/
def md5Round (M : List Nat) (st : Nat × Nat × Nat × Nat) (i : Nat) :
    Nat × Nat × Nat × Nat :=
  let (a, b, c, d) := st
  let f :=
    if i < 16 then (b &&& c) ||| ((not32 b) &&& d)
    else if i < 32 then (d &&& b) ||| ((not32 d) &&& c)
    else if i < 48 then b ^^^ c ^^^ d
    else c ^^^ (b ||| (not32 d))
  let g :=
    if i < 16 then i
    else if i < 32 then (5 * i + 1) % 16
    else if i < 48 then (3 * i + 5) % 16
    else (7 * i) % 16
  let tmp := add32 (add32 (add32 a f) (md5K.getD i 0)) (leWord M g)
  (d, add32 b (rotl32 tmp (md5S.getD i 0)), b, c)

/-- Process one 64-byte block. -/
def md5Block (st : Nat × Nat × Nat × Nat) (M : List Nat) :
    Nat × Nat × Nat × Nat :=
  let res := (List.range 64).foldl (md5Round M) st
  (add32 st.1 res.1, add32 st.2.1 res.2.1, add32 st.2.2.1 res.2.2.1,
   add32 st.2.2.2 res.2.2.2)

/-- Process `n` consecutive 64-byte blocks. -/
def md5Blocks (st : Nat × Nat × Nat × Nat) (bytes : List Nat) :
    Nat → Nat × Nat × Nat × Nat
  | 0 => st
  | n + 1 => md5Blocks (md5Block st (bytes.take 64)) (bytes.drop 64) n

/-- Hexadecimal digit characters. -/
def hexDigit (n : Nat) : Char := "0123456789abcdef".toList.getD n '0'

/-- Two-character lowercase hex rendering of a byte. -/
def byteHex (b : Nat) : String := String.mk [hexDigit (b / 16), hexDigit (b % 16)]

/-- Little-endian hex rendering of a 32-bit word, as in an MD5 digest. -/
def wordHexLE (w : Nat) : String :=
  byteHex (w % 256) ++ byteHex ((w >>> 8) % 256) ++
    byteHex ((w >>> 16) % 256) ++ byteHex ((w >>> 24) % 256)

/-- MD5 hex digest of a string, as `hashlib.md5(s.encode('utf-8')).hexdigest()`. -/
def md5hex (s : String) : String :=
  let msg := md5Pad (utf8Bytes s)
  let st := md5Blocks (0x67452301, 0xefcdab89, 0x98badcfe, 0x10325476) msg
    (msg.length / 64)
  wordHexLE st.1 ++ wordHexLE st.2.1 ++ wordHexLE st.2.2.1 ++ wordHexLE st.2.2.2

set_option maxRecDepth 8000

/-- Sanity anchor: the implementation reproduces the standard MD5 digest
of `"abc"`. -/
theorem md5hex_abc : md5hex "abc" = "900150983cd24fb0d6963f7d28e17f72" := by decide

/-! ### Geometry normalization (`main.py` lines 96–102 and 113–117)

Clip geometry is tracked with exact rationals; a `NormResult` records the
dimensions right after the resize step, the final dimensions, and which
fit-up operation (center-crop, pad-on-black-canvas, or none) ran. -/

/-- Which geometry fix-up ran after the resize step. -/
inductive FitOp where
  | cropCenter
  | padToCanvas
  | noFit
deriving DecidableEq, Repr

/-- Result of normalizing a source of intrinsic size `w0 × h0` to a target
canvas: dimensions after the resize call, final dimensions, and the fix-up
operation that was applied. -/
structure NormResult where
  resizedW : ℚ
  resizedH : ℚ
  finalW : ℚ
  finalH : ℚ
  op : FitOp
deriving DecidableEq, Repr

/-- Lines 113–117 (image branch; also 136–140 for the closing image):
`ImageClip(path).resize(height=height)` scales to the target height
preserving aspect ratio, then the result is center-cropped if too wide or
centered on a black canvas of the target size if too narrow. -/
def resizeHeightFit (w0 h0 W H : ℚ) : NormResult :=
  let rw := w0 * H / h0
  if rw > W then ⟨rw, H, W, H, FitOp.cropCenter⟩
  else if rw < W then ⟨rw, H, W, H, FitOp.padToCanvas⟩
  else ⟨rw, H, rw, H, FitOp.noFit⟩

set_option linter.unusedVariables false in
/-- Lines 97–102 (video branch): `VideoFileClip(path).resize(newsize=(width,
height))` forces both dimensions to the target size (the intrinsic size
`w0 × h0` does not influence the result), after which the code compares
`clip.w` against `width` and center-crops or pads on a black canvas. -/
def normalizeVideo (w0 h0 W H : ℚ) : NormResult :=
  let c : ℚ × ℚ := (W, H)
  if c.1 > W then ⟨c.1, c.2, W, c.2, FitOp.cropCenter⟩
  else if c.1 < W then ⟨c.1, c.2, W, H, FitOp.padToCanvas⟩
  else ⟨c.1, c.2, c.1, c.2, FitOp.noFit⟩

/-! ### Disk frame cache (`main.py` lines 21–24 and 106–119)

The cache directory is a fixed scratch location; an entry is addressed by
the MD5 digest of `f"{file_path}_{width}_{height}"`. The file system is
modelled as an association list from paths to entries. `save_frame` writes
directly to the destination path, so a failure while writing leaves a
truncated file there; a failure before the write (e.g. while loading or
resizing the image) leaves nothing. -/

/-- Fixed scratch directory (`tempfile.gettempdir()` modelled as `/tmp`). -/
def DISK_CACHE_DIR : String := "/tmp/video_export_cache"

/-- Cache key string `f"{file_path}_{width}_{height}"` (line 106). -/
def cacheKeyOf (path : String) (w h : Nat) : String :=
  path ++ "_" ++ toString w ++ "_" ++ toString h

/-- Cache entry path `os.path.join(DISK_CACHE_DIR, f"{hash_key}.png")`
(lines 107–108). -/
def cacheFilePath (cacheKey : String) : String :=
  DISK_CACHE_DIR ++ "/" ++ md5hex cacheKey ++ ".png"

/-- State of a file sitting at a cache path: fully written, or truncated by
a failure during `save_frame`. -/
inductive Entry where
  | complete (frame : NormResult)
  | truncated
deriving DecidableEq, Repr

/-- The cache directory contents: association list from paths to entries. -/
def FS : Type := List (String × Entry)

/-- Behavior of one run of the frame-producing step (lines 113–118):
it succeeds and writes `frame`, or it raises before `save_frame` starts
writing, or it raises while `save_frame` is writing the destination file. -/
inductive ProduceOutcome where
  | success (frame : NormResult)
  | failBeforeWrite (msg : String)
  | failDuringWrite (msg : String)
deriving DecidableEq, Repr

/-- Result of one cache access: the updated directory contents, the
returned path or propagated error, and how many times the producing step
ran (0 or 1). -/
structure CacheStep where
  fs : FS
  res : Except String String
  runs : Nat

/-- Lines 109–119: under `DISK_CACHE_LOCK`, if a file already exists at the
entry's path it is reused without running the producer; otherwise the
producer runs once and `save_frame` writes directly to the destination
path. The global lock serializes the whole check-and-create sequence, so
concurrent executions are modelled by sequential composition. -/
def getOrCreate (fs : FS) (cacheKey : String) (po : ProduceOutcome) : CacheStep :=
  let path := cacheFilePath cacheKey
  match fs.lookup path with
  | some _ => ⟨fs, Except.ok path, 0⟩
  | none =>
    match po with
    | ProduceOutcome.success frame => ⟨(path, Entry.complete frame) :: fs, Except.ok path, 1⟩
    | ProduceOutcome.failBeforeWrite m => ⟨fs, Except.error m, 1⟩
    | ProduceOutcome.failDuringWrite m => ⟨(path, Entry.truncated) :: fs, Except.error m, 1⟩

/-- A sequence of cache accesses for one key (the process lifetime as seen
by that key), returning the final directory contents, every call's result,
and the total number of producer runs. -/
def getOrCreateRuns (fs : FS) (cacheKey : String) :
    List ProduceOutcome → FS × List (Except String String) × Nat
  | [] => (fs, [], 0)
  | po :: rest =>
    let st := getOrCreate fs cacheKey po
    let r := getOrCreateRuns st.fs cacheKey rest
    (r.1, st.res :: r.2.1, st.runs + r.2.2)

/-! ### Random selection (`main.py` lines 80–83)

`random.sample` draws entries at pairwise-distinct positions; CPython's
pool-shrinking scheme is modelled by removing the drawn position, with
`rand` the randomness oracle (the `i`-th draw of the underlying RNG).
`random.choices` draws independent positions, and raises an IndexError on
an empty population. -/

/-- Model of `random.sample(pool, k)` for `k ≤ pool.length`: each step
draws one element at a position chosen by the oracle and removes it. -/
def pySampleAux {α : Type} (rand : Nat → Nat) : Nat → Nat → List α → List α
  | _, 0, _ => []
  | _, _ + 1, [] => []
  | step, k + 1, x :: xs =>
    let pl := x :: xs
    let i := rand step % pl.length
    pl.get ⟨i, Nat.mod_lt _ (Nat.succ_pos xs.length)⟩ ::
      pySampleAux rand (step + 1) k (pl.eraseIdx i)

/-- Model of `random.choices(pop, k=k)`: `k` independent draws; on an empty
population the subscript raises `IndexError: list index out of range`. -/
def pyChoices {α : Type} (rand : Nat → Nat) (xs : List α) (k : Nat) :
    Except String (List α) :=
  match xs with
  | [] => if k = 0 then Except.ok [] else Except.error "list index out of range"
  | x :: rest =>
    Except.ok ((List.range k).map (fun i =>
      (x :: rest).get ⟨rand i % (x :: rest).length, Nat.mod_lt _ (Nat.succ_pos rest.length)⟩))

/-- Lines 80–83: with replacement when the list is shorter than
`images_per_video`, without replacement otherwise. -/
def selectFiles (rand : Nat → Nat) (files : List String) (k : Nat) :
    Except String (List String) :=
  if files.length < k then pyChoices rand files k
  else Except.ok (pySampleAux rand 0 k files)

/-! ### Clips and assembly (`main.py` lines 33–47 and 148–158) -/

/-- Whether a segment came from a video file or from a (cached) image. -/
inductive ClipKind where
  | videoBacked
  | imageBacked
deriving DecidableEq, Repr

/-- A visual segment: its backing kind, final dimensions, duration in
seconds, and the duration of its fade-in mask (0 when none). -/
structure Clip where
  kind : ClipKind
  w : ℚ
  h : ℚ
  dur : ℚ
  fadein : ℚ
deriving DecidableEq, Repr

/-- Modelled from the spec (§6 `crossfadeIn`): adds a linear fade-in mask
over the first `f` seconds; the duration is unchanged. -/
def crossfadein (f : ℚ) (c : Clip) : Clip :=
  { c with fadein := f }

/-- Composite timeline: the placed segments and the total duration. -/
structure Composite where
  placed : List Clip
  duration : ℚ
deriving DecidableEq, Repr

/-- Helper for `composeDuration`: walks the segments left to right;
`start` is where the next segment begins, `m` the largest end seen so far.
Each segment begins `padding` after the previous segment's end. -/
def composeAux (padding : ℚ) : ℚ → ℚ → List ℚ → ℚ
  | _, m, [] => m
  | start, m, d :: ds => composeAux padding (start + d + padding) (max m (start + d)) ds

/-- Modelled from the spec (§6 `concatenate`, §3 Timeline): segment `i + 1`
starts `padding` seconds after segment `i` ends (negative padding overlaps
them), and the composite's duration is the largest segment end. -/
def composeDuration (ds : List ℚ) (padding : ℚ) : ℚ :=
  composeAux padding 0 0 ds

/-- Modelled from the spec (§6): `concatenate_videoclips(clips,
method="compose", padding=p)`. -/
def concatenateCompose (clips : List Clip) (padding : ℚ) : Composite :=
  ⟨clips, composeDuration (clips.map Clip.dur) padding⟩

/-- Lines 33–47 (`crossfade_consecutive_clips`): `None` on an empty list,
the clip itself for a singleton, otherwise the first clip as-is and every
later clip with `.crossfadein(fade_duration)`, concatenated with
`method="compose"` and `padding=-fade_duration`. -/
def crossfade_consecutive_clips (clips : List Clip) (fade_duration : ℚ) :
    Option Composite :=
  match clips with
  | [] => none
  | [c] => some ⟨[c], c.dur⟩
  | c :: rest =>
    some (concatenateCompose (c :: rest.map (crossfadein fade_duration)) (-fade_duration))

/-! ### Audio fitting (`main.py` lines 161–167) -/

/-- A fitted audio track: its final duration, the number of copies of the
source laid down by `audio_loop` (1 when only trimmed), and the start
offset of the trim window. -/
structure AudioFit where
  dur : ℚ
  nloops : Nat
  offset : ℚ
deriving DecidableEq, Repr

/-! The media environment: everything the task reads from the world. -/

/-- External state read by a task: file existence (queried with exactly the
string the code passes to `os.path.isfile`), intrinsic media geometry and
durations, per-source-file producer failures, and encoder failure. -/
structure MediaEnv where
  isFile : String → Bool
  videoSize : String → ℚ × ℚ
  videoDuration : String → ℚ
  imageSize : String → ℚ × ℚ
  audioDuration : String → ℚ
  produceFails : String → Option (Bool × String)
  encodeError : Option String

/-- Lines 161–167: attach audio only when the parameter is set, nonempty
and `os.path.isfile` succeeds on it as given; loop with
`audio_loop(duration=T)` (which lays `int(T / d) + 1` copies and trims to
exactly `T`, modelled from spec §6 `loopAudio`) when shorter than the
video, else trim with `subclip(0, T)` (spec §6 `trimAudio`). -/
def attachAudio (env : MediaEnv) (audio : Option String) (T : ℚ) : Option AudioFit :=
  match audio with
  | none => none
  | some a =>
    if (!(a == "")) && env.isFile a then
      let d := env.audioDuration a
      if d < T then some ⟨T, (Int.floor (T / d)).toNat + 1, 0⟩
      else some ⟨T, 1, 0⟩
    else none

/-! ### The per-asset pipeline and the task body (`main.py` lines 67–183) -/

/-- Model of Python `str.startswith`. -/
def strStartsWith (s pre : String) : Bool := List.isPrefixOf pre.data s.data

/-- Model of Python `str.endswith` for a single suffix. -/
def strEndsWith (s suf : String) : Bool := List.isSuffixOf suf.data s.data

/-- ASCII lowercasing of one character (Python `str.lower` on the
character sets used for paths). -/
def lowerChar (c : Char) : Char :=
  if 65 ≤ c.toNat && c.toNat ≤ 90 then Char.ofNat (c.toNat + 32) else c

/-- Model of Python `str.lower`. -/
def strToLower (s : String) : String := String.mk (s.data.map lowerChar)

/-- Model of Python `str.strip`: drop whitespace from both ends. -/
def strTrim (s : String) : String :=
  String.mk (((s.data.dropWhile Char.isWhitespace).reverse.dropWhile
    Char.isWhitespace).reverse)

/-- Model of `os.path.isabs`. -/
def isAbsPath (p : String) : Bool := strStartsWith p "/"

/-- Model of `os.path.join` for the shapes used here. -/
def joinPath (a b : String) : String := a ++ "/" ++ b

/-- Lines 88–89 and 126–127: relative paths are joined onto the base
directory. -/
def resolvePath (base p : String) : String :=
  if isAbsPath p then p else joinPath base p

/-- Lines 94–96: a source file is loaded as a video exactly when its
lowercased path ends with `.mp4`, `.mov` or `.avi`. -/
def isVideoPath (p : String) : Bool :=
  let lp := strToLower p
  strEndsWith lp ".mp4" || strEndsWith lp ".mov" || strEndsWith lp ".avi"

/-- Export parameters (`export_params`, lines 69–77). -/
structure ExportParams where
  images_per_video : Nat
  width : Nat
  height : Nat
  per_image_time : ℚ
  fade_duration : ℚ
  audio_file : Option String
  output_folder : String
  crossfade : Bool
  closing_image : Option String

/-- The producer behavior for one image source: success computes the
resize/crop-or-pad frame; failures come from the environment. -/
def produceFor (env : MediaEnv) (p : String) (W H : ℚ) : ProduceOutcome :=
  match env.produceFails p with
  | none =>
    let sz := env.imageSize p
    ProduceOutcome.success (resizeHeightFit sz.1 sz.2 W H)
  | some (false, m) => ProduceOutcome.failBeforeWrite m
  | some (true, m) => ProduceOutcome.failDuringWrite m

/-- Lines 86–121, one iteration of the loop over `sample_files`: resolve
the path, skip missing files, load videos directly, and route images
through the disk cache; a producer error propagates. -/
def processAsset (env : MediaEnv) (base : String) (P : ExportParams) (fs : FS)
    (p0 : String) : FS × Except String (Option Clip) :=
  let p := resolvePath base p0
  if env.isFile p then
    if isVideoPath p then
      let sz := env.videoSize p
      let nr := normalizeVideo sz.1 sz.2 (P.width : ℚ) (P.height : ℚ)
      (fs, Except.ok (some ⟨ClipKind.videoBacked, nr.finalW, nr.finalH,
        env.videoDuration p, 0⟩))
    else
      let st := getOrCreate fs (cacheKeyOf p P.width P.height)
        (produceFor env p (P.width : ℚ) (P.height : ℚ))
      match st.res with
      | Except.ok _ =>
        (st.fs, Except.ok (some ⟨ClipKind.imageBacked, (P.width : ℚ), (P.height : ℚ),
          P.per_image_time, 0⟩))
      | Except.error e => (st.fs, Except.error e)
  else (fs, Except.ok none)

/-- The loop of lines 86–121 over all selected files. -/
def processAll (env : MediaEnv) (base : String) (P : ExportParams) (fs : FS) :
    List String → FS × Except String (List Clip)
  | [] => (fs, Except.ok [])
  | p :: rest =>
    match processAsset env base P fs p with
    | (fs1, Except.error e) => (fs1, Except.error e)
    | (fs1, Except.ok none) => processAll env base P fs1 rest
    | (fs1, Except.ok (some c)) =>
      match processAll env base P fs1 rest with
      | (fs2, Except.error e) => (fs2, Except.error e)
      | (fs2, Except.ok cs) => (fs2, Except.ok (c :: cs))

/-- Lines 123–143: the closing image, when set and nonblank, is resolved
against the base directory, silently skipped when missing, and otherwise
always routed through the image pipeline with a fixed 3-second duration. -/
def processClosing (env : MediaEnv) (base : String) (P : ExportParams) (fs : FS) :
    FS × Except String (Option Clip) :=
  match P.closing_image with
  | none => (fs, Except.ok none)
  | some ci0 =>
    if ci0 == "" || strTrim ci0 == "" then (fs, Except.ok none)
    else
      let ci := resolvePath base ci0
      if env.isFile ci then
        let st := getOrCreate fs (cacheKeyOf ci P.width P.height)
          (produceFor env ci (P.width : ℚ) (P.height : ℚ))
        match st.res with
        | Except.ok _ =>
          (st.fs, Except.ok (some ⟨ClipKind.imageBacked, (P.width : ℚ), (P.height : ℚ), 3, 0⟩))
        | Except.error e => (st.fs, Except.error e)
      else (fs, Except.ok none)

/-- Everything the body of `VideoExportTask.run` produces on success. -/
structure RunOut where
  mainClips : List Clip
  closing : Option Clip
  duration : ℚ
  audio : Option AudioFit
  outputPath : String

/-- The body of `VideoExportTask.run` (lines 68–178), i.e. everything
inside the `try`: select, normalize (skipping missing files), prepare the
closing clip, fail when no main clip survived, assemble with or without
crossfade, attach audio, and render. -/
def runBody (env : MediaEnv) (rand : Nat → Nat) (fs : FS) (base : String)
    (files : List String) (P : ExportParams) (idx : Nat) :
    FS × Except String RunOut :=
  match selectFiles rand files P.images_per_video with
  | Except.error e => (fs, Except.error e)
  | Except.ok sample_files =>
    match processAll env base P fs sample_files with
    | (fs1, Except.error e) => (fs1, Except.error e)
    | (fs1, Except.ok clips) =>
      match processClosing env base P fs1 with
      | (fs2, Except.error e) => (fs2, Except.error e)
      | (fs2, Except.ok closing) =>
        match clips with
        | [] => (fs2, Except.error "No valid files to process for video creation.")
        | c :: rest =>
          let finalDur :=
            if P.crossfade then
              let main :=
                match crossfade_consecutive_clips (c :: rest) P.fade_duration with
                | some m => m
                | none => ⟨[], 0⟩
              match closing with
              | some cc => composeDuration [main.duration, cc.dur] 0
              | none => main.duration
            else
              match closing with
              | some cc => composeDuration (((c :: rest) ++ [cc]).map Clip.dur) 0
              | none => composeDuration ((c :: rest).map Clip.dur) 0
          let audio := attachAudio env P.audio_file finalDur
          match env.encodeError with
          | some m => (fs2, Except.error m)
          | none =>
            (fs2, Except.ok ⟨c :: rest, closing, finalDur, audio,
              P.output_folder ++ "/video_" ++ toString idx ++ ".mp4"⟩)

/-- The Qt signals a task can emit. -/
inductive Signal where
  | progress (idx : Nat)
  | error (msg : String)
  | finished
deriving DecidableEq, Repr

/-- True for the two outcome signals (`progress` on success, `error` with a
message on failure). -/
def isOutcomeSignal : Signal → Bool
  | Signal.progress _ => true
  | Signal.error _ => true
  | Signal.finished => false

/-- True only for the completion signal. -/
def isFinishedSignal : Signal → Bool
  | Signal.finished => true
  | _ => false

/-- Lines 67–183 (`VideoExportTask.run`): the `try` block emits
`progress(video_idx)` on success, the `except Exception` handler emits
`error(f"Error in video {video_idx}: {e}")` on any failure, and
`finished` is emitted after the handler in both cases. -/
def runTask (env : MediaEnv) (rand : Nat → Nat) (fs : FS) (base : String)
    (files : List String) (P : ExportParams) (idx : Nat) : List Signal :=
  match (runBody env rand fs base files P idx).2 with
  | Except.ok _ => [Signal.progress idx, Signal.finished]
  | Except.error e =>
    [Signal.error ("Error in video " ++ toString idx ++ ": " ++ e), Signal.finished]

/-! ### Concrete fixtures used by the witnesses -/

/-- A concrete environment: the base directory holds a closing image, an
image, a song and a video; nothing exists anywhere else (in particular not
relative to the process working directory). -/
def envFix : MediaEnv :=
  ⟨fun q => q == "/base/close.png" || q == "/base/img.png" ||
      q == "/base/song.mp3" || q == "/base/vid.mp4",
   fun _ => (500, 500), fun _ => 7, fun _ => (400, 400), fun _ => 4,
   fun _ => none, none⟩

/-- Concrete export parameters used by the witnesses. -/
def paramsFix : ExportParams :=
  ⟨1, 1920, 1080, 2, 1, some "song.mp3", "/out", true, some "close.png"⟩

/-! ### Cache lemmas -/

/-- When a file already sits at the entry's path, the cache access reuses
the directory unchanged, returns that path, and does not run the producer. -/
theorem getOrCreate_hit {fs : FS} {key : String} {e : Entry} (po : ProduceOutcome)
    (h : List.lookup (cacheFilePath key) fs = some e) :
    getOrCreate fs key po = ⟨fs, Except.ok (cacheFilePath key), 0⟩ := by
  unfold getOrCreate
  simp only [h]

/-- A successful cache access returns the entry path of the key and leaves
a file at that path. -/
theorem getOrCreate_ok {fs : FS} {key : String} {po : ProduceOutcome} {p : String}
    (h : (getOrCreate fs key po).res = Except.ok p) :
    p = cacheFilePath key ∧
      ∃ e, List.lookup (cacheFilePath key) (getOrCreate fs key po).fs = some e := by
  unfold getOrCreate at *
  rcases hl : List.lookup (cacheFilePath key) fs with _ | e
  · simp only [hl] at h ⊢
    cases po <;> simp_all
  · simp only [hl] at h ⊢
    simp_all

/-- A single cache access runs the producer at most once. -/
theorem getOrCreate_runs_le_one (fs : FS) (key : String) (po : ProduceOutcome) :
    (getOrCreate fs key po).runs ≤ 1 := by
  unfold getOrCreate
  rcases hl : List.lookup (cacheFilePath key) fs with _ | e
  · simp only [hl]
    cases po <;> simp
  · simp only [hl]
    simp

/-- Once a file sits at the key's entry path, every later access for that
key returns that path, never runs the producer, and leaves the directory
unchanged. -/
theorem getOrCreateRuns_after_hit {key : String} :
    ∀ (pos : List ProduceOutcome) (fs : FS) (e : Entry),
      List.lookup (cacheFilePath key) fs = some e →
      (getOrCreateRuns fs key pos).1 = fs ∧
        (getOrCreateRuns fs key pos).2.2 = 0 ∧
        ∀ r ∈ (getOrCreateRuns fs key pos).2.1, r = Except.ok (cacheFilePath key) := by
  intro pos
  induction pos with
  | nil => intro fs e h; simp [getOrCreateRuns]
  | cons po rest ih =>
    intro fs e h
    have hc := getOrCreate_hit po h
    have hrest := ih fs e h
    simp only [getOrCreateRuns, hc] at *
    refine ⟨hrest.1, by simpa using hrest.2.1, ?_⟩
    intro r hr
    rcases List.mem_cons.mp hr with h1 | h1
    · simpa using h1
    · exact hrest.2.2 r h1

/-- C3: for every (source path, target width, target height) triple, once a
get-or-create succeeds and returns a cached-frame path, that first access
ran the producer at most once, and every later access for the same triple
— the global `DISK_CACHE_LOCK` serializes concurrent accesses into such a
sequence — returns the very same path and never runs the producer again. -/
theorem c3_cache_at_most_once (fs : FS) (path : String) (w h : Nat)
    (po : ProduceOutcome) (pos : List ProduceOutcome) (p : String)
    (hok : (getOrCreate fs (cacheKeyOf path w h) po).res = Except.ok p) :
    (getOrCreate fs (cacheKeyOf path w h) po).runs ≤ 1 ∧
      (getOrCreateRuns (getOrCreate fs (cacheKeyOf path w h) po).fs
        (cacheKeyOf path w h) pos).2.2 = 0 ∧
      ∀ r ∈ (getOrCreateRuns (getOrCreate fs (cacheKeyOf path w h) po).fs
        (cacheKeyOf path w h) pos).2.1, r = Except.ok p := by
  obtain ⟨hp, e, hl⟩ := getOrCreate_ok hok
  subst hp
  have := getOrCreateRuns_after_hit pos _ e hl
  exact ⟨getOrCreate_runs_le_one _ _ _, this.2.1, this.2.2⟩

/-- Witness for C3 at a concrete triple: create once, then two further
accesses reuse the same path with zero producer runs. -/
theorem c3_cache_at_most_once_witness :
    (getOrCreate [] (cacheKeyOf "a.png" 4 3)
      (ProduceOutcome.success ⟨4, 3, 4, 3, FitOp.noFit⟩)).runs ≤ 1 ∧
      (getOrCreateRuns (getOrCreate [] (cacheKeyOf "a.png" 4 3)
          (ProduceOutcome.success ⟨4, 3, 4, 3, FitOp.noFit⟩)).fs (cacheKeyOf "a.png" 4 3)
        [ProduceOutcome.success ⟨4, 3, 4, 3, FitOp.noFit⟩,
         ProduceOutcome.failBeforeWrite "unused"]).2.2 = 0 ∧
      ∀ r ∈ (getOrCreateRuns (getOrCreate [] (cacheKeyOf "a.png" 4 3)
          (ProduceOutcome.success ⟨4, 3, 4, 3, FitOp.noFit⟩)).fs (cacheKeyOf "a.png" 4 3)
        [ProduceOutcome.success ⟨4, 3, 4, 3, FitOp.noFit⟩,
         ProduceOutcome.failBeforeWrite "unused"]).2.1,
        r = Except.ok (cacheFilePath (cacheKeyOf "a.png" 4 3)) :=
  c3_cache_at_most_once [] "a.png" 4 3 _ _ _ rfl

/-- C2 counterexample: a failure of `save_frame` while writing propagates
the error but leaves a truncated file at the key's destination path — the
write is not atomic, refuting "no partial or corrupt cache entry is left". -/
theorem c2_counterexample_partial_left :
    (getOrCreate [] (cacheKeyOf "/base/img.png" 1920 1080)
      (ProduceOutcome.failDuringWrite "disk full")).res = Except.error "disk full" ∧
    List.lookup (cacheFilePath (cacheKeyOf "/base/img.png" 1920 1080))
      (getOrCreate [] (cacheKeyOf "/base/img.png" 1920 1080)
        (ProduceOutcome.failDuringWrite "disk full")).fs = some Entry.truncated := by
  constructor <;> rfl

/-- C2 (amended): if the frame-producing step fails while creating a cache
entry, the error propagates to the caller; but the frame is saved directly
to the destination path (no write-to-temp-then-rename), so a failure
during the write leaves a truncated file at the key's destination, while
only a failure before the write leaves no entry. -/
theorem c2_amended_error_propagates (fs : FS) (path : String) (w h : Nat) (m : String)
    (hnone : List.lookup (cacheFilePath (cacheKeyOf path w h)) fs = none) :
    ((getOrCreate fs (cacheKeyOf path w h) (ProduceOutcome.failBeforeWrite m)).res
        = Except.error m ∧
      List.lookup (cacheFilePath (cacheKeyOf path w h))
        (getOrCreate fs (cacheKeyOf path w h) (ProduceOutcome.failBeforeWrite m)).fs
        = none) ∧
    ((getOrCreate fs (cacheKeyOf path w h) (ProduceOutcome.failDuringWrite m)).res
        = Except.error m ∧
      List.lookup (cacheFilePath (cacheKeyOf path w h))
        (getOrCreate fs (cacheKeyOf path w h) (ProduceOutcome.failDuringWrite m)).fs
        = some Entry.truncated) := by
  unfold getOrCreate
  simp [hnone]

/-- Witness for C2 (amended) on an empty cache directory. -/
theorem c2_amended_error_propagates_witness :
    ((getOrCreate [] (cacheKeyOf "b.png" 8 6) (ProduceOutcome.failBeforeWrite "io")).res
        = Except.error "io" ∧
      List.lookup (cacheFilePath (cacheKeyOf "b.png" 8 6))
        (getOrCreate [] (cacheKeyOf "b.png" 8 6) (ProduceOutcome.failBeforeWrite "io")).fs
        = none) ∧
    ((getOrCreate [] (cacheKeyOf "b.png" 8 6) (ProduceOutcome.failDuringWrite "io")).res
        = Except.error "io" ∧
      List.lookup (cacheFilePath (cacheKeyOf "b.png" 8 6))
        (getOrCreate [] (cacheKeyOf "b.png" 8 6) (ProduceOutcome.failDuringWrite "io")).fs
        = some Entry.truncated) :=
  c2_amended_error_propagates [] "b.png" 8 6 "io" rfl

/-! ### Outcome and completion signals (claim C4) -/

/-- C4: every dispatched job emits exactly one outcome signal — `progress`
with the video index on success, or `error` with a human-readable message
on any exception — and exactly one `finished` signal, emitted last, for
every possible environment, randomness, cache state and parameter set; in
particular a failing job still returns its signal list normally, so it
cannot crash the scheduler nor abort sibling jobs. -/
theorem c4_exactly_one_outcome_one_finished (env : MediaEnv) (rand : Nat → Nat)
    (fs : FS) (base : String) (files : List String) (P : ExportParams) (idx : Nat) :
    (runTask env rand fs base files P idx).countP isOutcomeSignal = 1 ∧
      (runTask env rand fs base files P idx).countP isFinishedSignal = 1 ∧
      (runTask env rand fs base files P idx).getLast? = some Signal.finished := by
  unfold runTask
  rcases (runBody env rand fs base files P idx).2 with e | o <;>
    simp [List.countP_cons, isOutcomeSignal, isFinishedSignal]

/-! ### Random selection lemmas (claim C5) -/

/-- Everything `pySampleAux` returns comes from the pool. -/
theorem pySampleAux_subset {α : Type} (rand : Nat → Nat) :
    ∀ (k step : Nat) (pool : List α), pySampleAux rand step k pool ⊆ pool := by
  intro k
  induction k with
  | zero => intro step pool; simp [pySampleAux]
  | succ k ih =>
    intro step pool
    match pool with
    | [] => simp [pySampleAux]
    | x :: xs =>
      simp only [pySampleAux]
      intro a ha
      rcases List.mem_cons.mp ha with h1 | h1
      · rw [h1]; exact List.get_mem _ _ _
      · exact List.eraseIdx_subset _ _ (ih _ _ h1)

/-- In a duplicate-free list, the element at position `i` does not survive
the removal of position `i`. -/
theorem nodup_get_not_mem_eraseIdx {α : Type} {l : List α} (hnd : l.Nodup)
    (i : Nat) (hi : i < l.length) : l.get ⟨i, hi⟩ ∉ l.eraseIdx i := by
  intro hmem
  rcases List.mem_iff_getElem.mp hmem with ⟨j, hj, hje⟩
  rw [List.getElem_eraseIdx] at hje
  split at hje
  · next hlt =>
    have := (hnd.getElem_inj_iff).mp (by simpa using hje)
    omega
  · next hge =>
    have := (hnd.getElem_inj_iff).mp (by simpa using hje)
    omega

/-- Sampling without replacement from a duplicate-free pool yields a
duplicate-free selection. -/
theorem pySampleAux_nodup {α : Type} (rand : Nat → Nat) :
    ∀ (k step : Nat) (pool : List α), pool.Nodup →
      (pySampleAux rand step k pool).Nodup := by
  intro k
  induction k with
  | zero => intro step pool _; simp [pySampleAux]
  | succ k ih =>
    intro step pool hnd
    match pool with
    | [] => simp [pySampleAux]
    | x :: xs =>
      simp only [pySampleAux, List.nodup_cons]
      refine ⟨fun hmem => ?_, ih _ _ (hnd.eraseIdx _)⟩
      exact nodup_get_not_mem_eraseIdx hnd _ _
        (pySampleAux_subset rand _ _ _ hmem)

/-- C5 counterexample: a category file list with at least
`images_per_video` entries for which the selection contains a duplicate —
`random.sample` draws distinct positions, not distinct values, so a list
holding the same path twice refutes "the selection contains no
duplicates". -/
theorem c5_counterexample_duplicate_entries :
    2 ≤ (["a", "a"] : List String).length ∧
      selectFiles (fun _ => 0) ["a", "a"] 2 = Except.ok ["a", "a"] ∧
      ¬ (["a", "a"] : List String).Nodup := by
  refine ⟨by decide, rfl, by decide⟩

/-- C5 (amended): when the category file list has at least
`images_per_video` entries the job samples without replacement — entries
at pairwise-distinct positions — so whenever the list's entries are
pairwise distinct the selection contains no duplicates; when the list has
fewer entries than `images_per_video` it samples with replacement
(`random.choices`), where repeats are possible. -/
theorem c5_amended_sampling :
    (∀ (rand : Nat → Nat) (files : List String) (k : Nat), files.Nodup →
      k ≤ files.length →
      ∃ sel, selectFiles rand files k = Except.ok sel ∧ sel.Nodup) ∧
    (∀ (rand : Nat → Nat) (files : List String) (k : Nat), files.length < k →
      selectFiles rand files k = pyChoices rand files k) ∧
    (∃ rand : Nat → Nat, (["a", "b"] : List String).length < 3 ∧
      selectFiles rand ["a", "b"] 3 = Except.ok ["a", "a", "a"]) := by
  refine ⟨?_, ?_, ?_⟩
  · intro rand files k hnd hk
    refine ⟨pySampleAux rand 0 k files, ?_, pySampleAux_nodup rand k 0 files hnd⟩
    unfold selectFiles
    rw [if_neg (by omega)]
  · intro rand files k hlt
    unfold selectFiles
    rw [if_pos hlt]
  · exact ⟨fun _ => 0, by decide, rfl⟩

/-- Witness for C5 (amended), first part, at a concrete duplicate-free
list. -/
theorem c5_amended_sampling_witness :
    ∃ sel, selectFiles (fun n => n) ["a", "b", "c"] 2 = Except.ok sel ∧ sel.Nodup :=
  c5_amended_sampling.1 (fun n => n) ["a", "b", "c"] 2 (by decide) (by decide)

/-! ### Crossfade assembly (claims C6 and C1) -/

/-- Duration computation for overlapped composition: when every later
segment is at least as long as the overlap `f`, the ends are increasing
and the total is the start of the walk plus the durations minus one
overlap per join. -/
theorem composeAux_neg_padding (f : ℚ) :
    ∀ (ds : List ℚ) (d s m : ℚ), (∀ x ∈ ds, f ≤ x) → m ≤ s + d →
      composeAux (-f) s m (d :: ds) = s + d + ds.sum - ds.length * f := by
  intro ds
  induction ds with
  | nil =>
    intro d s m _ hm
    simp only [composeAux, List.sum_nil, List.length_nil]
    rw [max_eq_right hm]
    push_cast
    ring
  | cons d2 ds ih =>
    intro d s m hf hm
    have h2 : f ≤ d2 := hf d2 (List.mem_cons_self d2 ds)
    have step : composeAux (-f) s m (d :: d2 :: ds)
        = composeAux (-f) (s + d + -f) (max m (s + d)) (d2 :: ds) := rfl
    rw [step, ih d2 (s + d + -f) (max m (s + d))
      (fun x hx => hf x (List.mem_cons_of_mem d2 hx))
      (by rw [max_le_iff]; constructor <;> linarith)]
    simp only [List.sum_cons, List.length_cons]
    push_cast
    ring

/-- C6: crossfade assembly uses segment 0 as-is, gives every later segment
a fade-in of `fadeDuration`, and — whenever the fade is nonnegative and no
longer than each segment — produces a main body whose duration is the sum
of the segment durations minus one fade per join, i.e. minus
`(k - 1) * fadeDuration` for `k` segments. -/
theorem c6_crossfade_duration (c : Clip) (rest : List Clip) (f : ℚ)
    (hf0 : 0 ≤ f) (hfc : f ≤ c.dur) (hfr : ∀ x ∈ rest, f ≤ x.dur) :
    ∃ comp, crossfade_consecutive_clips (c :: rest) f = some comp ∧
      comp.placed = c :: rest.map (crossfadein f) ∧
      comp.duration = (c.dur + (rest.map Clip.dur).sum) - rest.length * f := by
  match rest with
  | [] =>
    refine ⟨⟨[c], c.dur⟩, rfl, rfl, by simp⟩
  | r :: rs =>
    refine ⟨_, rfl, rfl, ?_⟩
    show composeDuration ((c :: (r :: rs).map (crossfadein f)).map Clip.dur) (-f) = _
    have hdur : ((r :: rs).map (crossfadein f)).map Clip.dur = (r :: rs).map Clip.dur := by
      simp [crossfadein]
    simp only [List.map_cons] at hdur ⊢
    unfold composeDuration
    rw [show (Clip.dur c :: (crossfadein f r).dur ::
        List.map Clip.dur (List.map (crossfadein f) rs))
        = Clip.dur c :: ((crossfadein f r).dur ::
          List.map Clip.dur (List.map (crossfadein f) rs)) from rfl]
    rw [composeAux_neg_padding f _ _ _ _ ?_ (by simp only [zero_add]; linarith)]
    · have : (crossfadein f r).dur :: List.map Clip.dur (List.map (crossfadein f) rs)
          = r.dur :: List.map Clip.dur rs := by
        simp only [crossfadein] at hdur ⊢
        exact hdur
      rw [this]
      simp
    · intro x hx
      have : x ∈ (r :: rs).map Clip.dur := by
        simp only [List.map_cons, List.map_map] at hx ⊢
        simpa [crossfadein, Function.comp] using hx
      rcases List.mem_map.mp this with ⟨cl, hcl, rfl⟩
      exact hfr cl hcl

/-- Witness for C6: three 2-second segments with a half-second fade yield a
5-second main body. -/
theorem c6_crossfade_duration_witness :
    ∃ comp, crossfade_consecutive_clips
        [⟨ClipKind.imageBacked, 1920, 1080, 2, 0⟩,
         ⟨ClipKind.imageBacked, 1920, 1080, 2, 0⟩,
         ⟨ClipKind.imageBacked, 1920, 1080, 2, 0⟩] (1 / 2) = some comp ∧
      comp.duration = 5 := by
  obtain ⟨comp, h1, _, h3⟩ := c6_crossfade_duration
    ⟨ClipKind.imageBacked, 1920, 1080, 2, 0⟩
    [⟨ClipKind.imageBacked, 1920, 1080, 2, 0⟩, ⟨ClipKind.imageBacked, 1920, 1080, 2, 0⟩]
    (1 / 2) (by norm_num) (by norm_num) (by intro x hx; fin_cases hx <;> norm_num)
  refine ⟨comp, h1, ?_⟩
  rw [h3]
  norm_num

/-! ### Video normalization (claim C1) -/

/-- C1: `resize(newsize=(width, height))` in the video branch forces the
clip to the exact target size for every intrinsic geometry — so the
subsequent center-crop and black-canvas branches never run — whereas the
aspect-preserving resize-to-height policy (the spec's wording, and what
the image branch at lines 113–117 does) maps a 500 × 500 video targeted at
1920 × 1080 to a 1080 × 1080 picture centered on a black canvas. The two
disagree at that input, and the dead `clip.w > width` / `clip.w < width`
comparisons right after the resize show the code's resize call is a slip. -/
theorem c1_video_resize_ignores_aspect :
    (∀ w0 h0 W H : ℚ, normalizeVideo w0 h0 W H = ⟨W, H, W, H, FitOp.noFit⟩) ∧
      normalizeVideo 500 500 1920 1080 = ⟨1920, 1080, 1920, 1080, FitOp.noFit⟩ ∧
      resizeHeightFit 500 500 1920 1080 = ⟨1080, 1080, 1920, 1080, FitOp.padToCanvas⟩ ∧
      normalizeVideo 500 500 1920 1080 ≠ resizeHeightFit 500 500 1920 1080 := by
  refine ⟨fun w0 h0 W H => ?_, by norm_num [normalizeVideo], ?_, ?_⟩
  · simp [normalizeVideo]
  · have h1 : ((500 : ℚ) * 1080 / 500) = 1080 := by norm_num
    rw [resizeHeightFit]
    norm_num
  · intro h
    have h2 : ((500 : ℚ) * 1080 / 500) = 1080 := by norm_num
    rw [normalizeVideo, resizeHeightFit] at h
    norm_num at h

/-! ### Audio fitting (claim C7) -/

/-- Unfolding equation for `attachAudio` on a present path. -/
theorem attachAudio_some (env : MediaEnv) (a : String) (T : ℚ) :
    attachAudio env (some a) T =
      if (!(a == "") && env.isFile a) then
        (if env.audioDuration a < T
         then some ⟨T, (Int.floor (T / env.audioDuration a)).toNat + 1, 0⟩
         else some ⟨T, 1, 0⟩)
      else none := rfl

/-- C7: an unset audio path, an empty audio path, or a path that does not
resolve to an existing file leaves the job silent; an existing audio file
shorter than the target duration is looped — `int(T / d) + 1` copies, so
coverage is at least `T` — and trimmed to exactly the target duration; an
existing audio file at least as long as the target is trimmed to `[0, T)`,
so the attached track's duration always equals the target exactly. -/
theorem c7_audio_fitting :
    (∀ (env : MediaEnv) (T : ℚ), attachAudio env none T = none) ∧
    (∀ (env : MediaEnv) (T : ℚ), attachAudio env (some "") T = none) ∧
    (∀ (env : MediaEnv) (a : String) (T : ℚ), env.isFile a = false →
      attachAudio env (some a) T = none) ∧
    (∀ (env : MediaEnv) (a : String) (T : ℚ), env.isFile a = true →
      a ≠ "" → 0 < env.audioDuration a → 0 ≤ T → env.audioDuration a < T →
      ∃ af, attachAudio env (some a) T = some af ∧ af.dur = T ∧ af.offset = 0 ∧
        T ≤ (af.nloops : ℚ) * env.audioDuration a) ∧
    (∀ (env : MediaEnv) (a : String) (T : ℚ), env.isFile a = true →
      a ≠ "" → T ≤ env.audioDuration a →
      attachAudio env (some a) T = some ⟨T, 1, 0⟩) := by
  refine ⟨fun env T => rfl, fun env T => by simp [attachAudio_some], ?_, ?_, ?_⟩
  · intro env a T hf
    simp [attachAudio_some, hf]
  · intro env a T hf ha hd hT hlt
    rw [attachAudio_some, if_pos (by simp [hf, ha]), if_pos hlt]
    refine ⟨_, rfl, rfl, rfl, ?_⟩
    set d := env.audioDuration a with hdd
    have hfloor : (0 : ℤ) ≤ Int.floor (T / d) := by
      apply Int.floor_nonneg.mpr
      positivity
    have h1 : ((Int.floor (T / d)).toNat : ℚ) = ((Int.floor (T / d) : ℤ) : ℚ) := by
      rw [← Int.cast_natCast, Int.toNat_of_nonneg hfloor]
    have hlt2 : T / d < (Int.floor (T / d) : ℚ) + 1 := Int.lt_floor_add_one (T / d)
    push_cast
    rw [h1]
    calc T = T / d * d := by field_simp
    _ ≤ ((Int.floor (T / d) : ℚ) + 1) * d :=
        mul_le_mul_of_nonneg_right (le_of_lt hlt2) (le_of_lt hd)
  · intro env a T hf ha hge
    rw [attachAudio_some, if_pos (by simp [hf, ha]), if_neg (by linarith)]

/-- Witness for C7: a 4-second clip against a 10-second target is looped
three times and trimmed to 10 s; a 12-second clip is trimmed to 10 s. -/
theorem c7_audio_fitting_witness :
    (∃ af, attachAudio
        ⟨fun _ => true, fun _ => (0, 0), fun _ => 0, fun _ => (0, 0), fun _ => 4,
          fun _ => none, none⟩ (some "song.mp3") 10 = some af ∧
      af.dur = 10 ∧ af.offset = 0 ∧ (10 : ℚ) ≤ (af.nloops : ℚ) * 4) ∧
    attachAudio
        ⟨fun _ => true, fun _ => (0, 0), fun _ => 0, fun _ => (0, 0), fun _ => 12,
          fun _ => none, none⟩ (some "song.mp3") 10 = some ⟨10, 1, 0⟩ := by
  constructor
  · exact c7_audio_fitting.2.2.2.1
      ⟨fun _ => true, fun _ => (0, 0), fun _ => 0, fun _ => (0, 0), fun _ => 4,
        fun _ => none, none⟩ "song.mp3" 10 rfl (by decide) (by norm_num) (by norm_num)
      (by norm_num)
  · exact c7_audio_fitting.2.2.2.2
      ⟨fun _ => true, fun _ => (0, 0), fun _ => 0, fun _ => (0, 0), fun _ => 12,
        fun _ => none, none⟩ "song.mp3" 10 rfl (by decide) (by norm_num)


/-! ### Extension-based dispatch (claim C8) -/

/-- Unfolding equation for `processAsset` on an existing video-extension
path. -/
theorem processAsset_video_eq (env : MediaEnv) (base : String) (P : ExportParams)
    (fs : FS) (p0 : String) (hfile : env.isFile (resolvePath base p0) = true)
    (hv : isVideoPath (resolvePath base p0) = true) :
    processAsset env base P fs p0 = (fs, Except.ok (some
      ⟨ClipKind.videoBacked,
        (normalizeVideo (env.videoSize (resolvePath base p0)).1
          (env.videoSize (resolvePath base p0)).2 (P.width : ℚ) (P.height : ℚ)).finalW,
        (normalizeVideo (env.videoSize (resolvePath base p0)).1
          (env.videoSize (resolvePath base p0)).2 (P.width : ℚ) (P.height : ℚ)).finalH,
        env.videoDuration (resolvePath base p0), 0⟩)) := by
  simp [processAsset, hfile, hv]

/-- On an existing non-video path the asset pipeline either produces an
image-backed clip or propagates a producer error. -/
theorem processAsset_image_cases (env : MediaEnv) (base : String) (P : ExportParams)
    (fs : FS) (p0 : String) (hfile : env.isFile (resolvePath base p0) = true)
    (hv : isVideoPath (resolvePath base p0) = false) :
    (∃ fs2 c, processAsset env base P fs p0 = (fs2, Except.ok (some c)) ∧
      c.kind = ClipKind.imageBacked) ∨
    (∃ fs2 e, processAsset env base P fs p0 = (fs2, Except.error e)) := by
  simp only [processAsset, hfile, hv, if_true, if_false, Bool.false_eq_true]
  rcases hres : (getOrCreate fs (cacheKeyOf (resolvePath base p0) P.width P.height)
      (produceFor env (resolvePath base p0) (P.width : ℚ) (P.height : ℚ))).res with e | q
  · right
    exact ⟨_, _, rfl⟩
  · left
    exact ⟨_, _, rfl, rfl⟩

/-- C8: an existing selected asset is loaded as a video exactly when its
lowercased resolved path ends with `.mp4`, `.mov` or `.avi`; any other
existing file goes through the image pipeline (yielding an image-backed
clip when the frame producer succeeds, or an error when it fails); and a
closing clip, whenever one is produced, is image-backed regardless of the
closing path's extension. -/
theorem c8_video_extension_dispatch :
    (∀ (env : MediaEnv) (base : String) (P : ExportParams) (fs : FS) (p0 : String),
      env.isFile (resolvePath base p0) = true →
      ((∃ fs2 c, processAsset env base P fs p0 = (fs2, Except.ok (some c)) ∧
          c.kind = ClipKind.videoBacked) ↔
        (strEndsWith (strToLower (resolvePath base p0)) ".mp4"
          || strEndsWith (strToLower (resolvePath base p0)) ".mov"
          || strEndsWith (strToLower (resolvePath base p0)) ".avi") = true)) ∧
    (∀ (env : MediaEnv) (base : String) (P : ExportParams) (fs : FS) (p0 : String),
      env.isFile (resolvePath base p0) = true →
      (strEndsWith (strToLower (resolvePath base p0)) ".mp4"
        || strEndsWith (strToLower (resolvePath base p0)) ".mov"
        || strEndsWith (strToLower (resolvePath base p0)) ".avi") = false →
      (∃ fs2 c, processAsset env base P fs p0 = (fs2, Except.ok (some c)) ∧
          c.kind = ClipKind.imageBacked) ∨
      (∃ fs2 e, processAsset env base P fs p0 = (fs2, Except.error e))) ∧
    (∀ (env : MediaEnv) (base : String) (P : ExportParams) (fs fs2 : FS) (c : Clip),
      processClosing env base P fs = (fs2, Except.ok (some c)) →
      c.kind = ClipKind.imageBacked) := by
  have hdef : ∀ q : String, isVideoPath q
      = (strEndsWith (strToLower q) ".mp4" || strEndsWith (strToLower q) ".mov"
        || strEndsWith (strToLower q) ".avi") := fun _ => rfl
  refine ⟨?_, ?_, ?_⟩
  · intro env base P fs p0 hfile
    rw [← hdef]
    cases hv : isVideoPath (resolvePath base p0) with
    | true =>
      apply iff_of_true ?_ rfl
      exact ⟨fs, _, processAsset_video_eq env base P fs p0 hfile hv, rfl⟩
    | false =>
      apply iff_of_false ?_ (by simp)
      rintro ⟨fs2, c, hc, hkind⟩
      rcases processAsset_image_cases env base P fs p0 hfile hv with
        ⟨fs3, c2, hc2, hk2⟩ | ⟨fs3, e, hc2⟩
      · rw [hc2] at hc
        simp only [Prod.mk.injEq, Except.ok.injEq, Option.some.injEq] at hc
        rw [hc.2, hkind] at hk2
        exact absurd hk2 (by simp)
      · rw [hc2] at hc
        simp at hc
  · intro env base P fs p0 hfile hnv
    exact processAsset_image_cases env base P fs p0 hfile (by rw [hdef]; exact hnv)
  · intro env base P fs fs2 c h
    unfold processClosing at h
    rcases hci : P.closing_image with _ | ci
    · rw [hci] at h
      simp at h
    · rw [hci] at h
      simp only [] at h
      split at h
      · simp at h
      · split at h
        · split at h
          · simp only [Prod.mk.injEq, Except.ok.injEq, Option.some.injEq] at h
            rw [← h.2]
          · simp at h
        · simp at h

/-- Witness for C8: a `.mp4` asset under the base directory is loaded as a
video, and the same `.mp4` file configured as the closing image is still
processed through the image pipeline. -/
theorem c8_video_extension_dispatch_witness :
    (∃ fs2 c, processAsset envFix "/base" paramsFix [] "vid.mp4"
        = (fs2, Except.ok (some c)) ∧ c.kind = ClipKind.videoBacked) ∧
    (∀ fs2 c, processClosing envFix "/base"
        { paramsFix with closing_image := some "vid.mp4" } []
        = (fs2, Except.ok (some c)) → c.kind = ClipKind.imageBacked) := by
  constructor
  · exact (c8_video_extension_dispatch.1 envFix "/base" paramsFix [] "vid.mp4"
      (by decide)).mpr (by decide)
  · intro fs2 c h
    exact c8_video_extension_dispatch.2.2 envFix "/base"
      { paramsFix with closing_image := some "vid.mp4" } [] fs2 c h

/-! ### The closing segment does not satisfy the non-empty check (claim C9) -/

/-- C9: when the per-asset loop leaves no usable main segment, the body
raises `ValueError("No valid files to process for video creation.")` and
the job fails — even when a closing clip was prepared successfully, since
the emptiness check at line 145 inspects only the main clip list, before
the closing clip is ever appended. -/
theorem c9_closing_does_not_count (env : MediaEnv) (rand : Nat → Nat) (fs : FS)
    (base : String) (files : List String) (P : ExportParams) (idx : Nat)
    (sel : List String) (fs1 fs2 : FS) (cc : Clip)
    (hsel : selectFiles rand files P.images_per_video = Except.ok sel)
    (hall : processAll env base P fs sel = (fs1, Except.ok []))
    (hclose : processClosing env base P fs1 = (fs2, Except.ok (some cc))) :
    (runBody env rand fs base files P idx).2
      = Except.error "No valid files to process for video creation." := by
  unfold runBody
  simp only [hsel, hall, hclose]

/-- Witness for C9: the selected asset is missing while the closing image
exists and its clip is prepared, yet the job still fails. -/
theorem c9_closing_does_not_count_witness :
    (runBody envFix (fun _ => 0) [] "/base" ["missing.png"] paramsFix 1).2
      = Except.error "No valid files to process for video creation." :=
  c9_closing_does_not_count envFix (fun _ => 0) [] "/base" ["missing.png"] paramsFix 1
    ["missing.png"] [] _
    ⟨ClipKind.imageBacked, ((1920 : Nat) : ℚ), ((1080 : Nat) : ℚ), 3, 0⟩ rfl rfl rfl

/-! ### Path resolution asymmetry (claim C10) -/

/-- C10: a relative selected-asset path and a relative closing-image path
are joined onto the base directory before the existence check and any use,
whereas the audio path is passed to `os.path.isfile` exactly as given — so
an audio path that does not exist relative to the process working
directory loses the audio track and the job renders silent, even when the
same relative path exists under the base directory. -/
theorem c10_path_resolution :
    (∀ (env : MediaEnv) (base : String) (P : ExportParams) (fs : FS) (p0 : String),
      isAbsPath p0 = false →
      (env.isFile (joinPath base p0) = false →
        processAsset env base P fs p0 = (fs, Except.ok none)) ∧
      (env.isFile (joinPath base p0) = true →
        (processAsset env base P fs p0).2 ≠ Except.ok none)) ∧
    (∀ (env : MediaEnv) (base : String) (P : ExportParams) (fs : FS) (ci : String),
      isAbsPath ci = false → P.closing_image = some ci →
      (ci == "" || strTrim ci == "") = false →
      env.isFile (joinPath base ci) = false →
      processClosing env base P fs = (fs, Except.ok none)) ∧
    (∀ (env : MediaEnv) (rand : Nat → Nat) (fs : FS) (base : String)
      (files : List String) (P : ExportParams) (idx : Nat) (a : String) (out : RunOut),
      P.audio_file = some a → env.isFile a = false →
      env.isFile (joinPath base a) = true →
      (runBody env rand fs base files P idx).2 = Except.ok out →
      out.audio = none) := by
  refine ⟨?_, ?_, ?_⟩
  · intro env base P fs p0 habs
    have hres : resolvePath base p0 = joinPath base p0 := by
      unfold resolvePath
      rw [habs]
      simp
    constructor
    · intro hno
      simp only [processAsset, hres, hno]
      simp
    · intro hyes
      simp only [processAsset, hres, hyes, if_true]
      cases hv : isVideoPath (joinPath base p0) with
      | true => simp [hv]
      | false =>
        simp only [hv, Bool.false_eq_true, if_false]
        rcases hres2 : (getOrCreate fs (cacheKeyOf (joinPath base p0) P.width P.height)
            (produceFor env (joinPath base p0) (P.width : ℚ) (P.height : ℚ))).res with e | q
        · simp
        · simp
  · intro env base P fs ci habs hci hblank hno
    have hres : resolvePath base ci = joinPath base ci := by
      unfold resolvePath
      rw [habs]
      simp
    unfold processClosing
    rw [hci]
    simp only [hres, hblank, hno]
    simp
  · intro env rand fs base files P idx a out hpa hfa hba hok
    simp only [runBody] at hok
    split at hok
    · simp at hok
    · split at hok
      · simp at hok
      · split at hok
        · simp at hok
        · split at hok
          · simp at hok
          · split at hok
            · simp at hok
            · simp only [Except.ok.injEq] at hok
              rw [← hok]
              simp only []
              rw [hpa]
              simp [attachAudio_some, hfa]

/-- Witness for C10: with the fixture base directory, a missing relative
asset is skipped, and a job whose relative audio path exists only under
the base directory (not relative to the working directory) succeeds with
no audio attached. -/
theorem c10_path_resolution_witness :
    processAsset envFix "/base" paramsFix [] "missing.png" = ([], Except.ok none) ∧
    ∃ out, (runBody envFix (fun _ => 0) [] "/base" ["img.png"] paramsFix 1).2
        = Except.ok out ∧ out.audio = none := by
  refine ⟨(c10_path_resolution.1 envFix "/base" paramsFix [] "missing.png" rfl).1 rfl, ?_⟩
  obtain ⟨o, ho⟩ : ∃ o, (runBody envFix (fun _ => 0) [] "/base" ["img.png"] paramsFix 1).2
      = Except.ok o := ⟨_, rfl⟩
  exact ⟨o, ho, c10_path_resolution.2.2 envFix (fun _ => 0) [] "/base" ["img.png"]
    paramsFix 1 "song.mp3" o rfl rfl rfl ho⟩
